import Mathlib

/-!
Shallow embedding of the Modbus TCP client in `modbus.go` (package `modbus`,
repository eddielth/modbus).  Go byte slices become `List Nat` with entries
reduced modulo 256, `uint16` values become `Nat` reduced modulo 65536, and the
TCP connection becomes an explicit list of read results threaded through each
operation.  Fallible Go functions returning `(T, error)` become
`Except MbError T`.
-/

namespace Modbus

/-- Distinct error values produced by the client, one constructor per
`fmt.Errorf` / `&ModbusError{...}` site that the claims distinguish. -/
inductive MbError where
  /-- connection-level failure of a read (error return or deadline expiry) -/
  | transport
  /-- transaction ID mismatch between request and response header -/
  | transactionMismatch (expected got : Nat)
  /-- `ModbusError`: protocol exception reported by the remote device -/
  | modbusException (functionCode exceptionCode : Nat)
  /-- invalid quantity, rejected before any I/O -/
  | invalidQuantity
  /-- `invalid response length` in the read operations -/
  | invalidResponseLength
  /-- `response length mismatch` in the read operations -/
  | responseLengthMismatch
  /-- `invalid response` echo check in the write operations -/
  | invalidResponse
  /-- `invalid values type for ...` in `ExecuteBatch` -/
  | invalidValuesType
  /-- `unknown operation` in `ExecuteBatch` -/
  | unknownOperation
  deriving DecidableEq, Repr

/-- One `conn.Read` call's outcome: `none` models an error return (including
deadline expiry), `some bytes` models a successful return delivering `bytes`
(possibly fewer than requested, as Go's `io.Reader` contract allows). -/
abbrev ReadResult := Option (List Nat)

/-- The connection, modelled as the sequence of outcomes of successive
`conn.Read` calls.  An exhausted list behaves like a deadline expiry. -/
abbrev Transport := List ReadResult

/-- Client state: the `transactionID` field of `Client` plus the remaining
transport.  The `conn`, `timeout` and `mutex` fields have no observable
effect in this sequential model. -/
structure ClientState where
  transactionID : Nat
  transport : Transport
  deriving DecidableEq, Repr

/-- `binary.BigEndian.PutUint16`: big-endian bytes of a 16-bit value. -/
def putUint16 (v : Nat) : List Nat :=
  [v % 65536 / 256, v % 256]

/-- Go's zero-initialised `make([]byte, n)` filled by a single `conn.Read`
that delivered `delivered`: the first `min n delivered.length` bytes come from
the delivery, the rest stay zero.  Entries are reduced mod 256 since Go bytes
are `uint8`. -/
def padRead (n : Nat) (delivered : List Nat) : List Nat :=
  (delivered.map (· % 256)).take n ++ List.replicate (n - delivered.length) 0

/-- `binary.BigEndian.Uint16(header[4:6]) - 1` in Go `uint16` arithmetic:
the response-body size computed from the header's length field. -/
def respBodyLen (lengthField : Nat) : Nat :=
  (lengthField + 65535) % 65536

/-- Lines 132-138 of `modbus.go`: the exception check on the response data.
Two or more bytes with the top bit of the first set become a `ModbusError`;
anything else is returned as data. -/
def checkException (data : List Nat) : Except MbError (List Nat) :=
  if 2 ≤ data.length ∧ 0x80 ≤ data.getD 0 0 then
    .error (.modbusException ((data.getD 0 0) &&& 0x7F) (data.getD 1 0))
  else
    .ok data

/-- The 7-byte MBAP header built in `sendRequest`: transaction ID,
protocol ID 0, length = PDU length + 1, unit (slave) ID. -/
def mbapHeader (tid slaveID pduLen : Nat) : List Nat :=
  putUint16 tid ++ putUint16 0 ++ putUint16 (pduLen + 1) ++ [slaveID % 256]

/-- `request := append(mbap, pdu...)`: the full frame written to the wire. -/
def requestFrame (tid slaveID : Nat) (pdu : List Nat) : List Nat :=
  mbapHeader tid slaveID pdu.length ++ pdu

/-- Result of one `sendRequest` call: the updated client state, the frame
that was written, and the response data or error. -/
structure ExchangeOut where
  state : ClientState
  frame : List Nat
  response : Except MbError (List Nat)
  deriving Repr

/-- Read-and-decode phase of `sendRequest` (lines 112-140): read a 7-byte
header, check the transaction ID, read `length - 1` further bytes (computed
in `uint16` arithmetic), and run the exception check.  Each `conn.Read` call
consumes one transport entry; the buffer stays zero-padded when the delivery
is short, exactly as Go's ignored byte count leaves it.  Returns the
response (or error) and the remaining transport. -/
def exchangeResponse (tid : Nat) (tr : Transport) :
    Except MbError (List Nat) × Transport :=
  match tr with
  | [] => (.error .transport, [])
  | none :: rest => (.error .transport, rest)
  | some chunk :: rest =>
    let header := padRead 7 chunk
    let respTid := header.getD 0 0 * 256 + header.getD 1 0
    if respTid ≠ tid then (.error (.transactionMismatch tid respTid), rest)
    else
      let dataLength := respBodyLen (header.getD 4 0 * 256 + header.getD 5 0)
      match rest with
      | [] => (.error .transport, [])
      | none :: rest2 => (.error .transport, rest2)
      | some chunk2 :: rest2 =>
        (checkException (padRead dataLength chunk2), rest2)

/-- `Client.sendRequest` (lines 80-141 of `modbus.go`): increment the
transaction ID, build and write the MBAP frame, then read and decode the
response via `exchangeResponse`. -/
def sendRequest (c : ClientState) (slaveID : Nat) (pdu : List Nat) :
    ExchangeOut :=
  let tid := (c.transactionID + 1) % 65536
  let pr := exchangeResponse tid c.transport
  ⟨⟨tid, pr.2⟩, requestFrame tid slaveID pdu, pr.1⟩

/-- One iteration of the coil-packing loop of `WriteMultipleCoils`
(lines 316-322): when `values[i]` is true, OR bit `i % 8` into byte `i / 8`
of the accumulator. -/
def setCoilBit (values : List Bool) (acc : List Nat) (i : Nat) : List Nat :=
  if values.getD i false then
    acc.set (i / 8) ((acc.getD (i / 8) 0) ||| (1 <<< (i % 8)))
  else acc

/-- Coil-packing loop of `WriteMultipleCoils` (lines 315-322): starting from
`byteCount` zero bytes, run `setCoilBit` over all indices of `values`. -/
def packCoilsInto (byteCount : Nat) (values : List Bool) : List Nat :=
  (List.range values.length).foldl (setCoilBit values) (List.replicate byteCount 0)

/-- The coil packing with the byte count `(N + 7) / 8 = ⌈N/8⌉` computed from
the array length, as `WriteMultipleCoils` does for quantities below 65536. -/
def packCoils (values : List Bool) : List Nat :=
  packCoilsInto ((values.length + 7) / 8) values

/-- Coil-unpacking loop of `ReadCoils` (lines 169-177) applied to the packed
bytes (the response with its two-byte prefix removed): coil `i` is bit `i % 8`
of byte `i / 8`. -/
def unpackCoils (bytes : List Nat) (n : Nat) : List Bool :=
  (List.range n).map (fun i => ((bytes.getD (i / 8) 0) &&& (1 <<< (i % 8))) != 0)

/-- The big-endian register encoding loop of `WriteMultipleRegisters`
(lines 353-356). -/
def packRegisters (values : List Nat) : List Nat :=
  values.flatMap putUint16

/-- `Client.ReadCoils` (lines 143-178): validate the quantity, build the PDU
with function code 0x01, exchange it, validate the response byte count, and
unpack the coil bits. -/
def ReadCoils (c : ClientState) (slaveID address quantity : Nat) :
    ClientState × Except MbError (List Bool) :=
  if quantity = 0 ∨ 2000 < quantity then (c, .error .invalidQuantity)
  else
    let out := sendRequest c slaveID ([0x01] ++ putUint16 address ++ putUint16 quantity)
    match out.response with
    | .error e => (out.state, .error e)
    | .ok response =>
      if response.length < 2 then (out.state, .error .invalidResponseLength)
      else
        let byteCount := response.getD 1 0
        if response.length ≠ 2 + byteCount then
          (out.state, .error .responseLengthMismatch)
        else
          (out.state, .ok (unpackCoils (response.drop 2) quantity))

/-- Response handling shared verbatim by `ReadHoldingRegisters` and
`ReadInputRegisters` (lines 197-213 and 233-249): check the byte-count field
against `byte(quantity * 2)` and the actual length, then decode big-endian
register pairs. -/
def decodeRegisters (quantity : Nat) (response : List Nat) :
    Except MbError (List Nat) :=
  if response.length < 2 then .error .invalidResponseLength
  else
    let byteCount := response.getD 1 0
    if byteCount ≠ quantity * 2 % 256 ∨ response.length ≠ 2 + byteCount then
      .error .responseLengthMismatch
    else
      .ok ((List.range quantity).map
        (fun i => response.getD (2 + i * 2) 0 * 256 + response.getD (3 + i * 2) 0))

/-- `Client.ReadHoldingRegisters` (lines 180-214): function code 0x03,
quantity range 1-125. -/
def ReadHoldingRegisters (c : ClientState) (slaveID address quantity : Nat) :
    ClientState × Except MbError (List Nat) :=
  if quantity = 0 ∨ 125 < quantity then (c, .error .invalidQuantity)
  else
    let out := sendRequest c slaveID ([0x03] ++ putUint16 address ++ putUint16 quantity)
    match out.response with
    | .error e => (out.state, .error e)
    | .ok response => (out.state, decodeRegisters quantity response)

/-- `Client.ReadInputRegisters` (lines 216-250): function code 0x04,
quantity range 1-125. -/
def ReadInputRegisters (c : ClientState) (slaveID address quantity : Nat) :
    ClientState × Except MbError (List Nat) :=
  if quantity = 0 ∨ 125 < quantity then (c, .error .invalidQuantity)
  else
    let out := sendRequest c slaveID ([0x04] ++ putUint16 address ++ putUint16 quantity)
    match out.response with
    | .error e => (out.state, .error e)
    | .ok response => (out.state, decodeRegisters quantity response)

/-- The echo check used by all four write operations (lines 269-272, 290-293,
329-332, 363-366): exactly five response bytes whose first byte is the
function code; nothing else about the echo is inspected. -/
def verifyWriteEcho (code : Nat) (response : List Nat) : Except MbError Unit :=
  if response.length ≠ 5 ∨ response.getD 0 0 ≠ code then .error .invalidResponse
  else .ok ()

/-- `Client.WriteSingleCoil` (lines 252-275): function code 0x05, value
encoded as 0xFF00 for true and 0x0000 for false. -/
def WriteSingleCoil (c : ClientState) (slaveID address : Nat) (value : Bool) :
    ClientState × Except MbError Unit :=
  let pdu := [0x05] ++ putUint16 address ++ (if value then [0xFF, 0x00] else [0x00, 0x00])
  let out := sendRequest c slaveID pdu
  match out.response with
  | .error e => (out.state, .error e)
  | .ok response => (out.state, verifyWriteEcho 0x05 response)

/-- `Client.WriteSingleRegister` (lines 277-296): function code 0x06. -/
def WriteSingleRegister (c : ClientState) (slaveID address value : Nat) :
    ClientState × Except MbError Unit :=
  let pdu := [0x06] ++ putUint16 address ++ putUint16 value
  let out := sendRequest c slaveID pdu
  match out.response with
  | .error e => (out.state, .error e)
  | .ok response => (out.state, verifyWriteEcho 0x06 response)

/-- `Client.WriteMultipleCoils` (lines 298-335): the quantity is
`uint16(len(values))`, the byte count `(quantity + 7) / 8`, and the coil bits
are packed LSB-first. -/
def WriteMultipleCoils (c : ClientState) (slaveID address : Nat)
    (values : List Bool) : ClientState × Except MbError Unit :=
  let quantity := values.length % 65536
  if quantity = 0 ∨ 1968 < quantity then (c, .error .invalidQuantity)
  else
    let byteCount := (quantity + 7) / 8
    let pdu := [0x0F] ++ putUint16 address ++ putUint16 quantity ++
      [byteCount % 256] ++ packCoilsInto byteCount values
    let out := sendRequest c slaveID pdu
    match out.response with
    | .error e => (out.state, .error e)
    | .ok response => (out.state, verifyWriteEcho 0x0F response)

/-- `Client.WriteMultipleRegisters` (lines 337-369): the quantity is
`uint16(len(values))`, the byte count `quantity * 2`, registers big-endian. -/
def WriteMultipleRegisters (c : ClientState) (slaveID address : Nat)
    (values : List Nat) : ClientState × Except MbError Unit :=
  let quantity := values.length % 65536
  if quantity = 0 ∨ 123 < quantity then (c, .error .invalidQuantity)
  else
    let byteCount := quantity * 2 % 65536
    let pdu := [0x10] ++ putUint16 address ++ putUint16 quantity ++
      [byteCount % 256] ++ packRegisters values
    let out := sendRequest c slaveID pdu
    match out.response with
    | .error e => (out.state, .error e)
    | .ok response => (out.state, verifyWriteEcho 0x10 response)

/-- The `interface{}`-typed `Values` field of `BatchOperation`: either absent,
a `[]bool`, or a `[]uint16`. -/
inductive BatchValues where
  | none
  | bools (l : List Bool)
  | regs (l : List Nat)
  deriving DecidableEq, Repr

/-- `BatchOperation` (lines 371-378). -/
structure BatchOperation where
  operation : String
  slaveID : Nat
  address : Nat
  values : BatchValues
  quantity : Nat
  deriving Repr

/-- The `interface{}`-typed `Values` field of `BatchResult`. -/
inductive ResultValues where
  | none
  | bools (l : List Bool)
  | regs (l : List Nat)
  deriving DecidableEq, Repr

/-- `BatchResult` (lines 380-385). -/
structure BatchResult where
  operation : String
  values : ResultValues
  error : Option MbError
  deriving Repr

/-- One iteration of the `ExecuteBatch` loop body (lines 392-430): dispatch on
the operation string, type-assert the values for writes, and record the
result or error. -/
def executeOne (c : ClientState) (op : BatchOperation) :
    ClientState × BatchResult :=
  match op.operation with
  | "read_coils" =>
    let p := ReadCoils c op.slaveID op.address op.quantity
    match p.2 with
    | .ok v => (p.1, ⟨op.operation, .bools v, Option.none⟩)
    | .error e => (p.1, ⟨op.operation, .none, some e⟩)
  | "read_holding" =>
    let p := ReadHoldingRegisters c op.slaveID op.address op.quantity
    match p.2 with
    | .ok v => (p.1, ⟨op.operation, .regs v, Option.none⟩)
    | .error e => (p.1, ⟨op.operation, .none, some e⟩)
  | "read_input" =>
    let p := ReadInputRegisters c op.slaveID op.address op.quantity
    match p.2 with
    | .ok v => (p.1, ⟨op.operation, .regs v, Option.none⟩)
    | .error e => (p.1, ⟨op.operation, .none, some e⟩)
  | "write_coils" =>
    match op.values with
    | .bools coils =>
      let p := WriteMultipleCoils c op.slaveID op.address coils
      (p.1, ⟨op.operation, .none,
        match p.2 with | .ok _ => Option.none | .error e => some e⟩)
    | _ => (c, ⟨op.operation, .none, some .invalidValuesType⟩)
  | "write_registers" =>
    match op.values with
    | .regs regs =>
      let p := WriteMultipleRegisters c op.slaveID op.address regs
      (p.1, ⟨op.operation, .none,
        match p.2 with | .ok _ => Option.none | .error e => some e⟩)
    | _ => (c, ⟨op.operation, .none, some .invalidValuesType⟩)
  | _ => (c, ⟨op.operation, .none, some .unknownOperation⟩)

/-- `Client.ExecuteBatch` (lines 387-433): run the items in order over the
shared connection, collecting one result per item. -/
def ExecuteBatch (c : ClientState) (ops : List BatchOperation) :
    ClientState × List BatchResult :=
  match ops with
  | [] => (c, [])
  | op :: rest =>
    let p := executeOne c op
    let q := ExecuteBatch p.1 rest
    (q.1, p.2 :: q.2)

/-- `ConnectionPool` (lines 435-441): the buffered channel becomes the list of
currently available session identifiers, bounded by `maxConn`. -/
structure PoolState where
  available : List Nat
  maxConn : Nat
  deriving DecidableEq, Repr

/-- `ConnectionPool.Put` (lines 486-494): the non-blocking channel send
succeeds exactly when the buffer is below capacity; otherwise the `default`
branch closes the session.  The boolean records whether the session was
closed. -/
def Put (p : PoolState) (client : Nat) : PoolState × Bool :=
  if p.available.length < p.maxConn then
    ({ p with available := p.available ++ [client] }, false)
  else
    (p, true)

/-- `NewConnectionPool` (lines 443-474) on the success path: a non-positive
capacity defaults to 10, the channel is created with that capacity, and that
many sessions are pre-created and sent into it.  The `address` and `timeout`
arguments only feed the dialing, which has no further observable effect
here. -/
def NewConnectionPool (maxConnections : Int) : PoolState :=
  let m := if maxConnections ≤ 0 then 10 else maxConnections.toNat
  ⟨List.range m, m⟩

/-- The closed enumeration of operation kinds, one per constant in the
function-code block (lines 13-22). -/
inductive OperationKind where
  | readCoils
  | readDiscreteInputs
  | readHoldingRegisters
  | readInputRegisters
  | writeSingleCoil
  | writeSingleRegister
  | writeMultipleCoils
  | writeMultipleRegisters
  deriving DecidableEq, Repr

/-- The function-code constants (lines 13-22 of `modbus.go`). -/
def funcCode : OperationKind → Nat
  | .readCoils => 0x01
  | .readDiscreteInputs => 0x02
  | .readHoldingRegisters => 0x03
  | .readInputRegisters => 0x04
  | .writeSingleCoil => 0x05
  | .writeSingleRegister => 0x06
  | .writeMultipleCoils => 0x0F
  | .writeMultipleRegisters => 0x10

/-- The typed per-kind operations actually declared as methods on `Client` in
`modbus.go`: `ReadCoils` (line 144), `ReadHoldingRegisters` (line 181),
`ReadInputRegisters` (line 217), `WriteSingleCoil` (line 253),
`WriteSingleRegister` (line 278), `WriteMultipleCoils` (line 299) and
`WriteMultipleRegisters` (line 338).  No other per-kind method exists in the
file. -/
def clientTypedOperations : List OperationKind :=
  [.readCoils, .readHoldingRegisters, .readInputRegisters,
   .writeSingleCoil, .writeSingleRegister,
   .writeMultipleCoils, .writeMultipleRegisters]

/-! Shared helper lemmas about the exchange layer. -/

lemma sendRequest_frame (c : ClientState) (s : Nat) (pdu : List Nat) :
    (sendRequest c s pdu).frame = requestFrame ((c.transactionID + 1) % 65536) s pdu := rfl

lemma sendRequest_response (c : ClientState) (s : Nat) (pdu : List Nat) :
    (sendRequest c s pdu).response
      = (exchangeResponse ((c.transactionID + 1) % 65536) c.transport).1 := rfl

lemma checkException_cases (data : List Nat) :
    checkException data = .ok data ∨
    ∃ f e, checkException data = .error (.modbusException f e) := by
  unfold checkException
  split
  · exact Or.inr ⟨_, _, rfl⟩
  · exact Or.inl rfl

lemma exchangeResponse_cases (tid : Nat) (tr : Transport) :
    (exchangeResponse tid tr).1 = .error .transport ∨
    (∃ x y, (exchangeResponse tid tr).1 = .error (.transactionMismatch x y)) ∨
    (∃ f e, (exchangeResponse tid tr).1 = .error (.modbusException f e)) ∨
    ∃ d, (exchangeResponse tid tr).1 = .ok d := by
  cases tr with
  | nil => exact Or.inl rfl
  | cons hd tl =>
    cases hd with
    | none => exact Or.inl rfl
    | some chunk =>
      simp only [exchangeResponse]
      split
      · exact Or.inr (Or.inl ⟨_, _, rfl⟩)
      · cases tl with
        | nil => exact Or.inl rfl
        | cons hd2 tl2 =>
          cases hd2 with
          | none => exact Or.inl rfl
          | some c2 =>
            dsimp only
            rcases checkException_cases
                (padRead (respBodyLen ((padRead 7 chunk).getD 4 0 * 256 +
                  (padRead 7 chunk).getD 5 0)) c2) with h | ⟨f, e, h⟩
            · exact Or.inr (Or.inr (Or.inr ⟨_, h⟩))
            · exact Or.inr (Or.inr (Or.inl ⟨f, e, h⟩))

lemma decodeRegisters_not_invalidQuantity (q : Nat) (r : List Nat) :
    decodeRegisters q r ≠ .error .invalidQuantity := by
  unfold decodeRegisters
  dsimp only
  (repeat' split) <;> simp

lemma verifyWriteEcho_not_invalidQuantity (k : Nat) (r : List Nat) :
    verifyWriteEcho k r ≠ .error .invalidQuantity := by
  unfold verifyWriteEcho
  split <;> simp

lemma ReadCoils_not_invalidQuantity (c : ClientState) (s a q : Nat)
    (h : ¬(q = 0 ∨ 2000 < q)) :
    (ReadCoils c s a q).2 ≠ .error .invalidQuantity := by
  unfold ReadCoils
  rw [if_neg h]
  dsimp only
  simp only [sendRequest_response]
  rcases exchangeResponse_cases ((c.transactionID + 1) % 65536) c.transport with
    h1 | ⟨x, y, h1⟩ | ⟨f, e, h1⟩ | ⟨d, h1⟩ <;> simp only [h1] <;> (repeat' split) <;> simp

lemma ReadHoldingRegisters_not_invalidQuantity (c : ClientState) (s a q : Nat)
    (h : ¬(q = 0 ∨ 125 < q)) :
    (ReadHoldingRegisters c s a q).2 ≠ .error .invalidQuantity := by
  unfold ReadHoldingRegisters
  rw [if_neg h]
  dsimp only
  simp only [sendRequest_response]
  rcases exchangeResponse_cases ((c.transactionID + 1) % 65536) c.transport with
    h1 | ⟨x, y, h1⟩ | ⟨f, e, h1⟩ | ⟨d, h1⟩ <;> simp only [h1] <;> simp
  exact decodeRegisters_not_invalidQuantity q d

lemma ReadInputRegisters_not_invalidQuantity (c : ClientState) (s a q : Nat)
    (h : ¬(q = 0 ∨ 125 < q)) :
    (ReadInputRegisters c s a q).2 ≠ .error .invalidQuantity := by
  unfold ReadInputRegisters
  rw [if_neg h]
  dsimp only
  simp only [sendRequest_response]
  rcases exchangeResponse_cases ((c.transactionID + 1) % 65536) c.transport with
    h1 | ⟨x, y, h1⟩ | ⟨f, e, h1⟩ | ⟨d, h1⟩ <;> simp only [h1] <;> simp
  exact decodeRegisters_not_invalidQuantity q d

lemma WriteMultipleCoils_not_invalidQuantity (c : ClientState) (s a : Nat)
    (v : List Bool) (h : ¬(v.length % 65536 = 0 ∨ 1968 < v.length % 65536)) :
    (WriteMultipleCoils c s a v).2 ≠ .error .invalidQuantity := by
  unfold WriteMultipleCoils
  rw [if_neg h]
  dsimp only
  simp only [sendRequest_response]
  rcases exchangeResponse_cases ((c.transactionID + 1) % 65536) c.transport with
    h1 | ⟨x, y, h1⟩ | ⟨f, e, h1⟩ | ⟨d, h1⟩ <;> simp only [h1] <;> simp
  exact verifyWriteEcho_not_invalidQuantity 0x0F d

lemma WriteMultipleRegisters_not_invalidQuantity (c : ClientState) (s a : Nat)
    (v : List Nat) (h : ¬(v.length % 65536 = 0 ∨ 123 < v.length % 65536)) :
    (WriteMultipleRegisters c s a v).2 ≠ .error .invalidQuantity := by
  unfold WriteMultipleRegisters
  rw [if_neg h]
  dsimp only
  simp only [sendRequest_response]
  rcases exchangeResponse_cases ((c.transactionID + 1) % 65536) c.transport with
    h1 | ⟨x, y, h1⟩ | ⟨f, e, h1⟩ | ⟨d, h1⟩ <;> simp only [h1] <;> simp
  exact verifyWriteEcho_not_invalidQuantity 0x10 d

/-- C1: encoding a read-holding-registers request with unit address 1, start
address 0 and quantity 5 produces exactly the PDU bytes `03 00 00 00 05`
(this is the byte list `ReadHoldingRegisters` builds for address 0 and
quantity 5), and the session frames that PDU under correlation identifier 1
(a fresh client increments its transaction ID from 0 to 1) into exactly the
12-byte envelope `00 01 00 00 00 06 01 03 00 00 00 05`. -/
theorem readHoldingRegisters_encoding :
    [0x03] ++ putUint16 0 ++ putUint16 5 = [0x03, 0x00, 0x00, 0x00, 0x05] ∧
    requestFrame 1 1 [0x03, 0x00, 0x00, 0x00, 0x05] =
      [0x00, 0x01, 0x00, 0x00, 0x00, 0x06, 0x01, 0x03, 0x00, 0x00, 0x00, 0x05] ∧
    ∀ tr : Transport,
      (sendRequest ⟨0, tr⟩ 1 ([0x03] ++ putUint16 0 ++ putUint16 5)).frame =
        [0x00, 0x01, 0x00, 0x00, 0x00, 0x06, 0x01, 0x03, 0x00, 0x00, 0x00, 0x05] := by
  refine ⟨by decide, by decide, fun tr => ?_⟩
  rw [sendRequest_frame]
  show requestFrame ((0 + 1) % 65536) 1 ([0x03] ++ putUint16 0 ++ putUint16 5) =
    [0x00, 0x01, 0x00, 0x00, 0x00, 0x06, 0x01, 0x03, 0x00, 0x00, 0x00, 0x05]
  decide

/-- C2 (code behavior at the failing input): `sendRequest` ignores the byte
count returned by `conn.Read`, so a transport that delivers only 6 of the 7
header bytes — or only 2 of the 5 response-PDU bytes — does not produce a
Transport error; the exchange proceeds on the zero-padded buffer and returns
ordinary data. -/
theorem short_read_accepted :
    ([0, 1, 0, 0, 0, 2] : List Nat).length < 7 ∧
    (sendRequest ⟨0, [some [0, 1, 0, 0, 0, 2], some [3]]⟩ 1
        ([0x03] ++ putUint16 0 ++ putUint16 1)).response = .ok [3] ∧
    ([3, 2] : List Nat).length < 5 ∧
    (sendRequest ⟨0, [some [0, 1, 0, 0, 0, 6, 1], some [3, 2]]⟩ 1
        ([0x03] ++ putUint16 0 ++ putUint16 1)).response = .ok [3, 2, 0, 0, 0] :=
  ⟨by decide, rfl, by decide, rfl⟩

/-! Helper lemmas for the coil bit-packing proofs. -/

lemma getD_set_self (l : List Nat) (i x : Nat) (h : i < l.length) :
    (l.set i x).getD i 0 = x := by
  rw [List.getD_eq_getElem?_getD, List.getElem?_set_self h]
  rfl

lemma getD_set_ne (l : List Nat) (i j x : Nat) (h : i ≠ j) :
    (l.set i x).getD j 0 = l.getD j 0 := by
  rw [List.getD_eq_getElem?_getD, List.getElem?_set_ne h, ← List.getD_eq_getElem?_getD]

lemma getD_replicate_zero (m j : Nat) : (List.replicate m (0 : Nat)).getD j 0 = 0 := by
  rw [List.getD_eq_getElem?_getD, List.getElem?_replicate]
  split <;> rfl

lemma setCoilBit_length (v : List Bool) (acc : List Nat) (i : Nat) :
    (setCoilBit v acc i).length = acc.length := by
  unfold setCoilBit
  split <;> simp

lemma packFold_length (v : List Bool) (l : List Nat) (acc : List Nat) :
    (l.foldl (setCoilBit v) acc).length = acc.length := by
  induction l generalizing acc with
  | nil => rfl
  | cons i l ih => rw [List.foldl_cons, ih, setCoilBit_length]

lemma testBit_setCoilBit (v : List Bool) (acc : List Nat) (i j b : Nat) :
    ((setCoilBit v acc i).getD j 0).testBit b ↔
      ((acc.getD j 0).testBit b ∨
        (v.getD i false = true ∧ i / 8 = j ∧ i % 8 = b ∧ i / 8 < acc.length)) := by
  unfold setCoilBit
  by_cases hv : v.getD i false
  · rw [if_pos hv]
    by_cases hlen : i / 8 < acc.length
    · by_cases hj : i / 8 = j
      · subst hj
        rw [getD_set_self _ _ _ hlen, Nat.testBit_or, Nat.shiftLeft_eq, one_mul,
          Nat.testBit_two_pow]
        simp only [Bool.or_eq_true, decide_eq_true_eq]
        constructor
        · rintro (h | h)
          · exact Or.inl h
          · exact Or.inr ⟨hv, trivial, h, hlen⟩
        · rintro (h | ⟨_, _, h3, _⟩)
          · exact Or.inl h
          · exact Or.inr h3
      · rw [getD_set_ne _ _ _ _ hj]
        constructor
        · exact Or.inl
        · rintro (h | ⟨_, h2, _, _⟩)
          · exact h
          · exact absurd h2 hj
    · rw [List.set_eq_of_length_le (Nat.le_of_not_lt hlen)]
      constructor
      · exact Or.inl
      · rintro (h | ⟨_, _, _, h4⟩)
        · exact h
        · exact absurd h4 hlen
  · rw [if_neg hv]
    constructor
    · exact Or.inl
    · rintro (h | ⟨h1, _⟩)
      · exact h
      · exact absurd h1 hv

lemma packFold_testBit (v : List Bool) (l : List Nat) (acc : List Nat) (j b : Nat) :
    ((l.foldl (setCoilBit v) acc).getD j 0).testBit b ↔
      ((acc.getD j 0).testBit b ∨
        ∃ i ∈ l, v.getD i false = true ∧ i / 8 = j ∧ i % 8 = b ∧ i / 8 < acc.length) := by
  induction l generalizing acc with
  | nil => simp
  | cons i l ih =>
    rw [List.foldl_cons, ih, setCoilBit_length, testBit_setCoilBit]
    simp only [List.exists_mem_cons_iff]
    tauto

lemma packCoilsInto_testBit (v : List Bool) (m j b : Nat) :
    ((packCoilsInto m v).getD j 0).testBit b ↔
      ∃ i ∈ List.range v.length,
        v.getD i false = true ∧ i / 8 = j ∧ i % 8 = b ∧ i / 8 < m := by
  unfold packCoilsInto
  rw [packFold_testBit, List.length_replicate]
  constructor
  · rintro (h | h)
    · rw [getD_replicate_zero] at h
      simp at h
    · exact h
  · exact Or.inr

/-- C6: packing a coil array of length N produces `⌈N/8⌉` bytes, bit `i` of
the packed representation is stored in byte `⌊i/8⌋` at bit position `i mod 8`,
the bits beyond position N are zero, and unpacking the first N bits
reproduces the original array exactly. -/
theorem coil_pack_unpack_roundtrip (v : List Bool) :
    (packCoils v).length = (v.length + 7) / 8 ∧
    (∀ i, i < v.length →
      ((packCoils v).getD (i / 8) 0).testBit (i % 8) = v.getD i false) ∧
    (∀ i, v.length ≤ i →
      ((packCoils v).getD (i / 8) 0).testBit (i % 8) = false) ∧
    unpackCoils (packCoils v) v.length = v := by
  have key : ∀ i, ((packCoils v).getD (i / 8) 0).testBit (i % 8)
      ↔ (i < v.length ∧ v.getD i false = true) := by
    intro i
    unfold packCoils
    rw [packCoilsInto_testBit]
    constructor
    · rintro ⟨i2, hi2, hvi2, hdiv, hmod, hlt⟩
      rw [List.mem_range] at hi2
      have hii : i2 = i := by omega
      subst hii
      exact ⟨hi2, hvi2⟩
    · rintro ⟨hi, hvi⟩
      exact ⟨i, List.mem_range.mpr hi, hvi, rfl, rfl, by omega⟩
  refine ⟨?_, fun i hi => ?_, fun i hi => ?_, ?_⟩
  · unfold packCoils packCoilsInto
    rw [packFold_length, List.length_replicate]
  · rw [Bool.eq_iff_iff, key i]
    constructor
    · exact fun h => h.2
    · exact fun h => ⟨hi, h⟩
  · rw [Bool.eq_iff_iff, key i]
    constructor
    · rintro ⟨h1, -⟩
      omega
    · rintro h
      cases h
  · apply List.ext_getElem
    · simp [unpackCoils]
    · intro i h1 h2
      unfold unpackCoils
      simp only [List.getElem_map, List.getElem_range]
      rw [Nat.shiftLeft_eq, one_mul, Nat.and_two_pow]
      have hbit : ((packCoils v).getD (i / 8) 0).testBit (i % 8) = v[i] := by
        rw [Bool.eq_iff_iff, key i]
        constructor
        · rintro ⟨-, hvi⟩
          rw [List.getD_eq_getElem?_getD, List.getElem?_eq_getElem h2] at hvi
          simpa using hvi
        · intro hvi
          refine ⟨h2, ?_⟩
          rw [List.getD_eq_getElem?_getD, List.getElem?_eq_getElem h2]
          simpa using hvi
      rw [hbit]
      cases hb : v[i] <;> simp [hb]

/-- C6 witness: the round trip evaluated on the concrete array
`[true, false, true]` from the repository's own test table
(`TestCoilConversion`, packed byte 0x05). -/
theorem coil_pack_unpack_roundtrip_witness :
    (packCoils [true, false, true]).length = 1 ∧
    ((packCoils [true, false, true]).getD 0 0).testBit 0 = true ∧
    ((packCoils [true, false, true]).getD 0 0).testBit 3 = false ∧
    unpackCoils (packCoils [true, false, true]) 3 = [true, false, true] :=
  ⟨(coil_pack_unpack_roundtrip [true, false, true]).1,
   (coil_pack_unpack_roundtrip [true, false, true]).2.1 0 (by decide),
   (coil_pack_unpack_roundtrip [true, false, true]).2.2.1 3 (by decide),
   (coil_pack_unpack_roundtrip [true, false, true]).2.2.2⟩

/-- C7 counterexample: a one-byte response `0x83` has its top bit set, yet
the decode step returns it as ordinary typed data (`len(data) >= 2` fails),
both at the `checkException` level and end-to-end through `sendRequest` with
a header declaring length 2. -/
theorem exception_short_response_counterexample :
    0x80 ≤ ([0x83] : List Nat).getD 0 0 ∧
    checkException [0x83] = .ok [0x83] ∧
    (sendRequest ⟨0, [some [0, 1, 0, 0, 0, 2, 1], some [0x83]]⟩ 1
        ([0x03] ++ putUint16 0 ++ putUint16 1)).response = .ok [0x83] :=
  ⟨by decide, rfl, rfl⟩

/-- C7 (amended): for every response of at least two bytes whose first byte
has the top bit set, decode reports the exception with the function
identifier (top bit cleared) and the exception code from the second byte; in
particular the response `0x83 0x02` decodes end-to-end to the exception
function=0x03, exception=0x02. -/
theorem exception_decode :
    (∀ data : List Nat, 2 ≤ data.length → 0x80 ≤ data.getD 0 0 →
      checkException data =
        .error (.modbusException ((data.getD 0 0) &&& 0x7F) (data.getD 1 0))) ∧
    (sendRequest ⟨0, [some [0, 1, 0, 0, 0, 3, 1], some [0x83, 0x02]]⟩ 1
        ([0x03] ++ putUint16 0 ++ putUint16 1)).response =
      .error (.modbusException 0x03 0x02) := by
  refine ⟨fun data h2 h80 => ?_, rfl⟩
  unfold checkException
  rw [if_pos ⟨h2, h80⟩]

/-- C7 witness: the amended decode rule applied to the concrete exception
response `0x83 0x02`. -/
theorem exception_decode_witness :
    checkException [0x83, 0x02] = .error (.modbusException 0x03 0x02) :=
  exception_decode.1 [0x83, 0x02] (by decide) (by decide)

/-- C10: a response header declaring length 0 makes the client compute the
body size `0 - 1` in `uint16` arithmetic, i.e. 65535, and read 65535 bytes
from the transport instead of rejecting the header; with an empty delivery
the exchange returns 65535 zero bytes as data. -/
theorem zero_length_wraparound :
    respBodyLen 0 = 65535 ∧
    (sendRequest ⟨0, [some [0, 1, 0, 0, 0, 0, 1], some []]⟩ 1
        ([0x03] ++ putUint16 0 ++ putUint16 1)).response =
      .ok (List.replicate 65535 0) := by
  refine ⟨rfl, ?_⟩
  have hdr : padRead 7 [0, 1, 0, 0, 0, 0, 1] = [0, 1, 0, 0, 0, 0, 1] := by decide
  have hstep : (sendRequest ⟨0, [some [0, 1, 0, 0, 0, 0, 1], some []]⟩ 1
      ([0x03] ++ putUint16 0 ++ putUint16 1)).response
      = checkException (padRead 65535 []) := by
    rw [sendRequest_response]
    simp only [exchangeResponse, hdr]
    rw [if_neg (by decide)]
    have hlen : respBodyLen (([0, 1, 0, 0, 0, 0, 1] : List Nat).getD 4 0 * 256 +
        ([0, 1, 0, 0, 0, 0, 1] : List Nat).getD 5 0) = 65535 := by decide
    rw [hlen]
  have hp : padRead 65535 [] = List.replicate 65535 0 := by
    unfold padRead
    rw [List.map_nil, List.take_nil, List.length_nil, Nat.sub_zero, List.nil_append]
  rw [hstep, hp]
  unfold checkException
  rw [if_neg ?side]
  case side =>
    rintro ⟨-, hg⟩
    rw [getD_replicate_zero] at hg
    omega

/-- C4: the constant block assigns function code 0x02 to read-discrete-inputs,
but `modbus.go` declares no typed `Client` method for that kind (the README
documents `client.ReadDiscreteInputs`, which does not exist). -/
theorem readDiscreteInputs_unimplemented :
    funcCode .readDiscreteInputs = 0x02 ∧
    OperationKind.readDiscreteInputs ∉ clientTypedOperations := by
  decide

/-- C8: releasing a session into an at-capacity pool closes it and leaves the
availability set unchanged; releases never push the availability count above
`maxConn`, and a freshly constructed pool starts exactly at capacity. -/
theorem pool_put_capacity :
    (∀ p : PoolState, ∀ cl : Nat, p.available.length = p.maxConn →
      Put p cl = (p, true)) ∧
    (∀ p : PoolState, ∀ cl : Nat, p.available.length ≤ p.maxConn →
      (Put p cl).1.available.length ≤ p.maxConn ∧ (Put p cl).1.maxConn = p.maxConn) ∧
    (∀ m : Int, (NewConnectionPool m).available.length = (NewConnectionPool m).maxConn) := by
  refine ⟨fun p cl h => ?_, fun p cl h => ?_, fun m => ?_⟩
  · unfold Put
    rw [if_neg (by omega)]
  · unfold Put
    split
    case isTrue hlt =>
      refine ⟨?_, rfl⟩
      simp only [List.length_append, List.length_cons, List.length_nil]
      omega
    case isFalse hge => exact ⟨h, rfl⟩
  · unfold NewConnectionPool
    dsimp only
    rw [List.length_range]

/-- C8 witness: a double-release into a full pool of capacity 2 closes the
session and leaves the pool unchanged; a release into a pool with one free
slot keeps the availability count within capacity. -/
theorem pool_put_capacity_witness :
    Put ⟨[5, 6], 2⟩ 7 = (⟨[5, 6], 2⟩, true) ∧
    (Put ⟨[9], 2⟩ 7).1.available.length ≤ 2 :=
  ⟨pool_put_capacity.1 ⟨[5, 6], 2⟩ 7 rfl,
   (pool_put_capacity.2.1 ⟨[9], 2⟩ 7 (by decide)).1⟩

/-- C3 counterexample: `WriteSingleCoil(address 0, value true)` sends the PDU
`05 00 00 FF 00`, but an echo of `05 AB CD 00 00` — deviating in both the
echoed address and the echoed value — is accepted as success; likewise for
`WriteSingleRegister` and `WriteMultipleRegisters`.  Only the length and the
function identifier of the echo are checked. -/
theorem write_echo_deviation_accepted :
    ([0x05] ++ putUint16 0 ++ [0xFF, 0x00] : List Nat) = [0x05, 0x00, 0x00, 0xFF, 0x00] ∧
    (WriteSingleCoil ⟨0, [some [0, 1, 0, 0, 0, 6, 1],
        some [0x05, 0xAB, 0xCD, 0x00, 0x00]]⟩ 1 0 true).2 = .ok () ∧
    (WriteSingleRegister ⟨0, [some [0, 1, 0, 0, 0, 6, 1],
        some [0x06, 0xAB, 0xCD, 0xEE, 0xFF]]⟩ 1 0 0x1234).2 = .ok () ∧
    (WriteMultipleRegisters ⟨0, [some [0, 1, 0, 0, 0, 6, 1],
        some [0x10, 0xAB, 0xCD, 0xEE, 0xFF]]⟩ 1 0 [7]).2 = .ok () :=
  ⟨by decide, rfl, rfl, rfl⟩

/-- C3 (amended): a write operation succeeds exactly when the echoed response
has exactly 5 bytes and its first byte equals the original function
identifier; the echoed address/value/quantity fields are never inspected, so
a `WriteSingleCoil` exchange succeeds for arbitrary echoed field bytes. -/
theorem write_echo_check :
    (∀ code : Nat, ∀ response : List Nat,
      verifyWriteEcho code response = .ok () ↔
        (response.length = 5 ∧ response.getD 0 0 = code)) ∧
    (∀ a : Nat, ∀ value : Bool, ∀ b1 b2 b3 b4 : Nat,
      (WriteSingleCoil ⟨0, [some [0, 1, 0, 0, 0, 6, 1],
          some [0x05, b1, b2, b3, b4]]⟩ 1 a value).2 = .ok ()) := by
  constructor
  · intro code response
    unfold verifyWriteEcho
    split
    case isTrue h =>
      constructor
      · intro h2
        exact absurd h2 (by simp)
      · rintro ⟨h1, h2⟩
        rcases h with h | h
        · exact absurd h1 h
        · exact absurd h2 h
    case isFalse h =>
      push_neg at h
      exact iff_of_true rfl h
  · intro a value b1 b2 b3 b4
    unfold WriteSingleCoil
    dsimp only
    rw [sendRequest_response]
    have hx : (exchangeResponse ((((⟨0, [some [0, 1, 0, 0, 0, 6, 1],
        some [0x05, b1, b2, b3, b4]]⟩ : ClientState)).transactionID + 1) % 65536)
        [some [0, 1, 0, 0, 0, 6, 1], some [0x05, b1, b2, b3, b4]]).1
        = checkException (padRead 5 [0x05, b1, b2, b3, b4]) := by
      have hdr : padRead 7 [0, 1, 0, 0, 0, 6, 1] = [0, 1, 0, 0, 0, 6, 1] := by decide
      simp only [exchangeResponse, hdr]
      rw [if_neg (by decide)]
      rfl
    rw [hx]
    have hpad : padRead 5 [0x05, b1, b2, b3, b4]
        = [0x05, b1 % 256, b2 % 256, b3 % 256, b4 % 256] := by
      unfold padRead
      simp
    rw [hpad]
    have hchk : checkException [0x05, b1 % 256, b2 % 256, b3 % 256, b4 % 256]
        = .ok [0x05, b1 % 256, b2 % 256, b3 % 256, b4 % 256] := by
      unfold checkException
      rw [if_neg (by simp)]
    rw [hchk]
    dsimp only
    unfold verifyWriteEcho
    rw [if_neg (by simp)]

/-- C5: each operation rejects out-of-range quantities with the
Invalid-Argument error while leaving the client state untouched (no I/O), and
passes in-range ones through to the exchange: read-coils accepts 1 and 2000
and rejects 0 and 2001; read-holding/read-input registers accept 1 and 125
and reject 0 and 126; write-multiple-coils accepts value lists of length 1
and 1968 and rejects 0 and 1969; write-multiple-registers accepts lengths 1
and 123 and rejects 0 and 124. -/
theorem quantity_validation :
    (∀ c s a, ReadCoils c s a 0 = (c, .error .invalidQuantity) ∧
      ReadCoils c s a 2001 = (c, .error .invalidQuantity) ∧
      (ReadCoils c s a 1).2 ≠ .error .invalidQuantity ∧
      (ReadCoils c s a 2000).2 ≠ .error .invalidQuantity) ∧
    (∀ c s a, ReadHoldingRegisters c s a 0 = (c, .error .invalidQuantity) ∧
      ReadHoldingRegisters c s a 126 = (c, .error .invalidQuantity) ∧
      (ReadHoldingRegisters c s a 1).2 ≠ .error .invalidQuantity ∧
      (ReadHoldingRegisters c s a 125).2 ≠ .error .invalidQuantity) ∧
    (∀ c s a, ReadInputRegisters c s a 0 = (c, .error .invalidQuantity) ∧
      ReadInputRegisters c s a 126 = (c, .error .invalidQuantity) ∧
      (ReadInputRegisters c s a 1).2 ≠ .error .invalidQuantity ∧
      (ReadInputRegisters c s a 125).2 ≠ .error .invalidQuantity) ∧
    (∀ c s a, ∀ v : List Bool,
      (v.length = 0 → WriteMultipleCoils c s a v = (c, .error .invalidQuantity)) ∧
      (v.length = 1969 → WriteMultipleCoils c s a v = (c, .error .invalidQuantity)) ∧
      (v.length = 1 → (WriteMultipleCoils c s a v).2 ≠ .error .invalidQuantity) ∧
      (v.length = 1968 → (WriteMultipleCoils c s a v).2 ≠ .error .invalidQuantity)) ∧
    (∀ c s a, ∀ v : List Nat,
      (v.length = 0 → WriteMultipleRegisters c s a v = (c, .error .invalidQuantity)) ∧
      (v.length = 124 → WriteMultipleRegisters c s a v = (c, .error .invalidQuantity)) ∧
      (v.length = 1 → (WriteMultipleRegisters c s a v).2 ≠ .error .invalidQuantity) ∧
      (v.length = 123 → (WriteMultipleRegisters c s a v).2 ≠ .error .invalidQuantity)) := by
  refine ⟨fun c s a => ⟨rfl, rfl, ?_, ?_⟩,
    fun c s a => ⟨rfl, rfl, ?_, ?_⟩,
    fun c s a => ⟨rfl, rfl, ?_, ?_⟩,
    fun c s a v => ⟨fun hv => ?_, fun hv => ?_, fun hv => ?_, fun hv => ?_⟩,
    fun c s a v => ⟨fun hv => ?_, fun hv => ?_, fun hv => ?_, fun hv => ?_⟩⟩
  · exact ReadCoils_not_invalidQuantity c s a 1 (by decide)
  · exact ReadCoils_not_invalidQuantity c s a 2000 (by decide)
  · exact ReadHoldingRegisters_not_invalidQuantity c s a 1 (by decide)
  · exact ReadHoldingRegisters_not_invalidQuantity c s a 125 (by decide)
  · exact ReadInputRegisters_not_invalidQuantity c s a 1 (by decide)
  · exact ReadInputRegisters_not_invalidQuantity c s a 125 (by decide)
  · unfold WriteMultipleCoils
    rw [if_pos (Or.inl (by rw [hv]))]
  · unfold WriteMultipleCoils
    rw [if_pos (Or.inr (by rw [hv]; decide))]
  · exact WriteMultipleCoils_not_invalidQuantity c s a v (by rw [hv]; decide)
  · exact WriteMultipleCoils_not_invalidQuantity c s a v (by rw [hv]; decide)
  · unfold WriteMultipleRegisters
    rw [if_pos (Or.inl (by rw [hv]))]
  · unfold WriteMultipleRegisters
    rw [if_pos (Or.inr (by rw [hv]; decide))]
  · exact WriteMultipleRegisters_not_invalidQuantity c s a v (by rw [hv]; decide)
  · exact WriteMultipleRegisters_not_invalidQuantity c s a v (by rw [hv]; decide)

/-- C5 witness: the boundary quantities evaluated on concrete inputs,
including the write-multiple limits via lists of the boundary lengths. -/
theorem quantity_validation_witness :
    ReadCoils ⟨0, []⟩ 1 0 0 = (⟨0, []⟩, .error .invalidQuantity) ∧
    (ReadCoils ⟨0, []⟩ 1 0 1).2 ≠ .error .invalidQuantity ∧
    WriteMultipleCoils ⟨0, []⟩ 1 0 (List.replicate 1969 false)
      = (⟨0, []⟩, .error .invalidQuantity) ∧
    (WriteMultipleCoils ⟨0, []⟩ 1 0 [true]).2 ≠ .error .invalidQuantity ∧
    WriteMultipleRegisters ⟨0, []⟩ 1 0 (List.replicate 124 0)
      = (⟨0, []⟩, .error .invalidQuantity) ∧
    (WriteMultipleRegisters ⟨0, []⟩ 1 0 [7]).2 ≠ .error .invalidQuantity :=
  ⟨(quantity_validation.1 ⟨0, []⟩ 1 0).1,
   (quantity_validation.1 ⟨0, []⟩ 1 0).2.2.1,
   (quantity_validation.2.2.2.1 ⟨0, []⟩ 1 0 (List.replicate 1969 false)).2.1
     (by rw [List.length_replicate]),
   (quantity_validation.2.2.2.1 ⟨0, []⟩ 1 0 [true]).2.2.1 rfl,
   (quantity_validation.2.2.2.2 ⟨0, []⟩ 1 0 (List.replicate 124 0)).2.1
     (by rw [List.length_replicate]),
   (quantity_validation.2.2.2.2 ⟨0, []⟩ 1 0 [7]).2.2.1 rfl⟩

/-! Helper lemmas for the batch executor. -/

lemma executeOne_operation (c : ClientState) (op : BatchOperation) :
    ((executeOne c op).2).operation = op.operation := by
  unfold executeOne
  (repeat' split) <;> dsimp only <;> (repeat' split) <;> rfl

lemma ExecuteBatch_cons (c : ClientState) (op : BatchOperation)
    (rest : List BatchOperation) :
    ExecuteBatch c (op :: rest) =
      ((ExecuteBatch (executeOne c op).1 rest).1,
       (executeOne c op).2 :: (ExecuteBatch (executeOne c op).1 rest).2) := rfl

lemma ExecuteBatch_length (ops : List BatchOperation) :
    ∀ c, ((ExecuteBatch c ops).2).length = ops.length := by
  induction ops with
  | nil => intro c; rfl
  | cons op rest ih =>
    intro c
    rw [ExecuteBatch_cons]
    simp [ih]

lemma ExecuteBatch_getD_operation (ops : List BatchOperation) :
    ∀ c (i : Nat), i < ops.length →
      (((ExecuteBatch c ops).2).getD i ⟨"", .none, Option.none⟩).operation
        = (ops.getD i ⟨"", 0, 0, .none, 0⟩).operation := by
  induction ops with
  | nil => intro c i h; exact absurd h (Nat.not_lt_zero i)
  | cons op rest ih =>
    intro c i h
    rw [ExecuteBatch_cons]
    cases i with
    | zero => simpa using executeOne_operation c op
    | succ i =>
      simp only [List.getD_cons_succ]
      exact ih _ i (by simpa using Nat.lt_of_succ_lt_succ h)

lemma ExecuteBatch_append (xs : List BatchOperation) :
    ∀ c (ys : List BatchOperation),
      ExecuteBatch c (xs ++ ys) =
        ((ExecuteBatch (ExecuteBatch c xs).1 ys).1,
         (ExecuteBatch c xs).2 ++ (ExecuteBatch (ExecuteBatch c xs).1 ys).2) := by
  induction xs with
  | nil => intro c ys; simp [ExecuteBatch]
  | cons op xs ih =>
    intro c ys
    rw [List.cons_append, ExecuteBatch_cons, ih, ExecuteBatch_cons]
    simp

/-- C9: batch execution returns exactly one outcome per item, in order (the
i-th outcome carries the i-th item's operation tag); executing `xs ++ ys`
runs `ys` after `xs` whatever the outcomes of `xs` were, so one item's error
never aborts the rest; a value list whose type does not match the kind, and
an unknown kind, produce an error recorded in that item's outcome only while
leaving the client state untouched. -/
theorem batch_outcomes :
    (∀ c ops, ((ExecuteBatch c ops).2).length = ops.length) ∧
    (∀ c ops (i : Nat), i < ops.length →
      (((ExecuteBatch c ops).2).getD i ⟨"", .none, Option.none⟩).operation
        = (ops.getD i ⟨"", 0, 0, .none, 0⟩).operation) ∧
    (∀ c xs ys, ExecuteBatch c (xs ++ ys) =
      ((ExecuteBatch (ExecuteBatch c xs).1 ys).1,
       (ExecuteBatch c xs).2 ++ (ExecuteBatch (ExecuteBatch c xs).1 ys).2)) ∧
    (∀ c op, op.operation = "write_registers" → (∀ l, op.values ≠ .regs l) →
      executeOne c op = (c, ⟨op.operation, .none, some .invalidValuesType⟩)) ∧
    (∀ c op, op.operation = "write_coils" → (∀ l, op.values ≠ .bools l) →
      executeOne c op = (c, ⟨op.operation, .none, some .invalidValuesType⟩)) ∧
    (∀ c op, op.operation ∉ (["read_coils", "read_holding", "read_input",
        "write_coils", "write_registers"] : List String) →
      executeOne c op = (c, ⟨op.operation, .none, some .unknownOperation⟩)) := by
  refine ⟨fun c ops => ExecuteBatch_length ops c,
    fun c ops i h => ExecuteBatch_getD_operation ops c i h,
    fun c xs ys => ExecuteBatch_append xs c ys,
    fun c op hop hvals => ?_, fun c op hop hvals => ?_, fun c op hop => ?_⟩
  · rcases op with ⟨o, s, a, vals, q⟩
    dsimp only at hop hvals
    subst hop
    cases vals with
    | none => rfl
    | bools l => rfl
    | regs l => exact absurd rfl (hvals l)
  · rcases op with ⟨o, s, a, vals, q⟩
    dsimp only at hop hvals
    subst hop
    cases vals with
    | none => rfl
    | regs l => rfl
    | bools l => exact absurd rfl (hvals l)
  · unfold executeOne
    split
    · rename_i heq
      exact absurd (by rw [heq]; simp) hop
    · rename_i heq
      exact absurd (by rw [heq]; simp) hop
    · rename_i heq
      exact absurd (by rw [heq]; simp) hop
    · rename_i heq
      exact absurd (by rw [heq]; simp) hop
    · rename_i heq
      exact absurd (by rw [heq]; simp) hop
    · rfl

/-- C9 witness: a four-item batch whose second item carries a mismatched
value type still yields four outcomes; the invalid item and an unknown kind
each produce only their own error outcome. -/
theorem batch_outcomes_witness :
    ((ExecuteBatch ⟨0, []⟩ [⟨"read_coils", 1, 0, .none, 2⟩,
        ⟨"write_registers", 1, 0, .bools [true], 0⟩,
        ⟨"frob", 1, 0, .none, 0⟩,
        ⟨"write_coils", 1, 0, .bools [true], 0⟩]).2).length = 4 ∧
    (((ExecuteBatch ⟨0, []⟩ [⟨"read_coils", 1, 0, .none, 2⟩]).2).getD 0
        ⟨"", .none, Option.none⟩).operation = "read_coils" ∧
    executeOne ⟨0, []⟩ ⟨"write_registers", 1, 0, .bools [true], 0⟩
      = (⟨0, []⟩, ⟨"write_registers", .none, some .invalidValuesType⟩) ∧
    executeOne ⟨0, []⟩ ⟨"frob", 1, 0, .none, 0⟩
      = (⟨0, []⟩, ⟨"frob", .none, some .unknownOperation⟩) :=
  ⟨batch_outcomes.1 ⟨0, []⟩ _,
   batch_outcomes.2.1 ⟨0, []⟩ _ 0 (by decide),
   batch_outcomes.2.2.2.1 ⟨0, []⟩ _ rfl (fun l => by simp),
   batch_outcomes.2.2.2.2.2 ⟨0, []⟩ _ (by simp)⟩

end Modbus
